import Mathlib

/-!
Verification of the `file_concatenator` repository (src/file_concatenator/core.py)
against its natural-language specification.  Python functions are shallowly
embedded as executable Lean definitions: strings become `List Char` or `String`,
the filesystem becomes an explicit snapshot type, bounded while-loops become
fuel-indexed structural recursions (with fuel chosen large enough that the
exhaustion branch is unreachable), and fallible operations return `Option`.
-/

set_option maxRecDepth 8000

namespace FileConcat

/-- The backtick character (code point 96), kept out of identifiers and
written via its code point. -/
def backtick : Char := Char.ofNat 96

/-- Model of Python `str.split(sep)` for a one-character separator: splitting
the empty string yields `[[]]`, and every separator occurrence starts a new
piece (so trailing separators produce a trailing empty piece). -/
def pySplit (sep : Char) : List Char → List (List Char)
  | [] => [[]]
  | c :: rest =>
    match pySplit sep rest with
    | [] => [[]]
    | l :: ls => if c = sep then [] :: l :: ls else (c :: l) :: ls

/-- Model of Python `str.strip()`: drop whitespace from both ends. -/
def pyStrip (l : List Char) : List Char :=
  ((l.dropWhile Char.isWhitespace).reverse.dropWhile Char.isWhitespace).reverse

/-- Lengths of the maximal runs of consecutive backticks in the character
list, carrying the length `cur` of the run in progress.  This renders the
lengths of the matches of the regular expression of one-or-more backticks
used by `_find_longest_backtick_sequence`. -/
def backtick_runs_aux : List Char → Nat → List Nat
  | [], cur => if cur = 0 then [] else [cur]
  | c :: rest, cur =>
    if c = backtick then backtick_runs_aux rest (cur + 1)
    else if cur = 0 then backtick_runs_aux rest 0
    else cur :: backtick_runs_aux rest 0

/-- The lengths of all maximal backtick runs of a character list. -/
def backtick_runs (s : List Char) : List Nat := backtick_runs_aux s 0

/-- Maximum of a list of naturals with default 0, as in Python
`max(xs, default=0)`. -/
def foldMax (l : List Nat) : Nat := l.foldr max 0

/-- Embeds `_find_longest_backtick_sequence`: 0 for empty content, otherwise
the maximum length of a maximal backtick run (with default 0 when there is
no run). -/
def find_longest_backtick_sequence (s : List Char) : Nat :=
  if s = [] then 0 else foldMax (backtick_runs s)

/-- The delimiter-growing while-loop of `_get_safe_separator`: while some
stripped line equals the candidate backtick run and the count is below 20,
increment the count.  The count starts at least 3 and the loop guard caps it
below 20, so 20 units of fuel always suffice; the fuel only makes the
recursion structural. -/
def get_safe_separator_loop : Nat → List (List Char) → Nat → Nat
  | 0, _, count => count
  | fuel + 1, lines, count =>
    if (lines.any fun l => decide (pyStrip l = List.replicate count backtick)) = true
        ∧ count < 20 then
      get_safe_separator_loop fuel lines (count + 1)
    else count

/-- Embeds `_get_safe_separator`: start from `max 3 (L + 1)` backticks where
`L` is the longest backtick run of the content, then grow while the candidate
occurs as a stripped line of the content (bounded at 20). -/
def get_safe_separator (content : List Char) : List Char :=
  let max_backticks := find_longest_backtick_sequence content
  let backtick_count := max 3 (max_backticks + 1)
  List.replicate (get_safe_separator_loop 20 (pySplit '\n' content) backtick_count) backtick

theorem le_foldMax_of_mem {a : Nat} {l : List Nat} (h : a ∈ l) : a ≤ foldMax l := by
  induction l with
  | nil => cases h
  | cons b t ih =>
    rcases List.mem_cons.mp h with rfl | h'
    · simp only [foldMax, List.foldr]
      exact Nat.le_max_left _ _
    · exact le_trans (ih h') (by simp only [foldMax, List.foldr]; exact Nat.le_max_right _ _)

theorem backtick_runs_aux_ge (s : List Char) : ∀ cur, cur ≤ foldMax (backtick_runs_aux s cur) := by
  induction s with
  | nil =>
    intro cur
    by_cases h : cur = 0 <;> simp [backtick_runs_aux, h, foldMax]
  | cons c rest ih =>
    intro cur
    by_cases hc : c = backtick
    · simpa [backtick_runs_aux, hc] using le_trans (Nat.le_succ cur) (ih (cur + 1))
    · by_cases h0 : cur = 0
      · simp [backtick_runs_aux, hc, h0]
      · simp only [backtick_runs_aux, if_neg hc, if_neg h0, foldMax, List.foldr]
        exact Nat.le_max_left _ _

theorem backtick_runs_aux_mono (s : List Char) :
    ∀ cur cur', cur ≤ cur' →
      foldMax (backtick_runs_aux s cur) ≤ foldMax (backtick_runs_aux s cur') := by
  induction s with
  | nil =>
    intro cur cur' h
    by_cases h0 : cur = 0
    · subst h0
      by_cases h0' : cur' = 0 <;> simp [backtick_runs_aux, h0', foldMax]
    · have h0' : cur' ≠ 0 := by omega
      simp only [backtick_runs_aux, if_neg h0, if_neg h0', foldMax, List.foldr]
      omega
  | cons c rest ih =>
    intro cur cur' h
    by_cases hc : c = backtick
    · simpa [backtick_runs_aux, hc] using ih (cur + 1) (cur' + 1) (by omega)
    · by_cases h0 : cur = 0
      · subst h0
        by_cases h0' : cur' = 0
        · simp [backtick_runs_aux, hc, h0']
        · simp only [backtick_runs_aux, if_neg hc, if_pos rfl, if_neg h0', foldMax, List.foldr]
          exact le_trans (Nat.le_max_right _ _) (Nat.le_refl _)
      · have h0' : cur' ≠ 0 := by omega
        simp only [backtick_runs_aux, if_neg hc, if_neg h0, if_neg h0', foldMax, List.foldr]
        omega

theorem foldMax_runs_aux_append (m : List Char) :
    ∀ (s : List Char) (cur : Nat),
      foldMax (backtick_runs_aux m 0) ≤ foldMax (backtick_runs_aux (s ++ m) cur) := by
  intro s
  induction s with
  | nil => intro cur; simpa using backtick_runs_aux_mono m 0 cur (Nat.zero_le _)
  | cons c s ih =>
    intro cur
    by_cases hc : c = backtick
    · simpa [backtick_runs_aux, hc] using ih (cur + 1)
    · by_cases h0 : cur = 0
      · simpa [backtick_runs_aux, hc, h0] using ih 0
      · have h5 := ih 0
        simp only [List.cons_append, backtick_runs_aux, if_neg hc, if_neg h0]
        refine le_trans h5 ?_
        simp only [foldMax, List.foldr]
        exact Nat.le_max_right _ _

theorem backtick_runs_aux_replicate (t : List Char) :
    ∀ (k cur : Nat),
      backtick_runs_aux (List.replicate k backtick ++ t) cur = backtick_runs_aux t (cur + k) := by
  intro k
  induction k with
  | zero => intro cur; simp
  | succ k ih =>
    intro cur
    have harith : cur + 1 + k = cur + (k + 1) := by omega
    simp [List.replicate_succ, backtick_runs_aux, ih, harith]

theorem replicate_infix_le {k : Nat} {s : List Char}
    (h : List.replicate k backtick <:+: s) : k ≤ foldMax (backtick_runs s) := by
  obtain ⟨pre, suf, hs⟩ := h
  have h1 : k ≤ foldMax (backtick_runs_aux suf (0 + k)) := by
    simpa using backtick_runs_aux_ge suf k
  have h2 : backtick_runs_aux (List.replicate k backtick ++ suf) 0 = backtick_runs_aux suf (0 + k) :=
    backtick_runs_aux_replicate suf k 0
  have h3 := foldMax_runs_aux_append (List.replicate k backtick ++ suf) pre 0
  rw [h2] at h3
  have h4 : pre ++ (List.replicate k backtick ++ suf) = s := by
    rw [← hs]; simp
  rw [h4] at h3
  exact le_trans h1 h3

theorem find_longest_eq (s : List Char) :
    find_longest_backtick_sequence s = foldMax (backtick_runs s) := by
  by_cases h : s = []
  · subst h; simp [find_longest_backtick_sequence, backtick_runs, backtick_runs_aux, foldMax]
  · simp [find_longest_backtick_sequence, h]

theorem pySplit_shape (sep : Char) (l : List Char) :
    ∃ hd tl, pySplit sep l = hd :: tl ∧ hd <+: l ∧ ∀ m ∈ tl, m <:+: l := by
  induction l with
  | nil => exact ⟨[], [], rfl, ⟨[], rfl⟩, by simp⟩
  | cons c rest ih =>
    obtain ⟨hd, tl, heq, hpre, hmem⟩ := ih
    by_cases hc : c = sep
    · refine ⟨[], hd :: tl, ?_, ⟨c :: rest, rfl⟩, ?_⟩
      · simp [pySplit, heq, hc]
      · intro m hm
        rcases List.mem_cons.mp hm with rfl | hm'
        · obtain ⟨t, ht⟩ := hpre
          exact ⟨[c], t, by simp [ht]⟩
        · obtain ⟨x, y, hxy⟩ := hmem m hm'
          exact ⟨c :: x, y, by simp [hxy]⟩
    · refine ⟨c :: hd, tl, ?_, ?_, ?_⟩
      · simp [pySplit, heq, hc]
      · obtain ⟨t, ht⟩ := hpre
        exact ⟨t, by simp [ht]⟩
      · intro m hm
        obtain ⟨x, y, hxy⟩ := hmem m hm
        exact ⟨c :: x, y, by simp [hxy]⟩

theorem mem_pySplit_isInf {sep : Char} {m l : List Char}
    (h : m ∈ pySplit sep l) : m <:+: l := by
  obtain ⟨hd, tl, heq, hpre, hmem⟩ := pySplit_shape sep l
  rw [heq] at h
  rcases List.mem_cons.mp h with rfl | h'
  · obtain ⟨t, ht⟩ := hpre
    exact ⟨[], t, by simpa using ht⟩
  · exact hmem m h'

theorem get_safe_separator_loop_ge :
    ∀ (fuel : Nat) (lines : List (List Char)) (count : Nat),
      count ≤ get_safe_separator_loop fuel lines count := by
  intro fuel
  induction fuel with
  | zero => intro lines count; exact Nat.le_refl _
  | succ fuel ih =>
    intro lines count
    by_cases h : (lines.any fun l => decide (pyStrip l = List.replicate count backtick)) = true
        ∧ count < 20
    · simp only [get_safe_separator_loop, if_pos h]
      exact le_trans (Nat.le_succ _) (ih lines (count + 1))
    · simp only [get_safe_separator_loop, if_neg h]
      exact Nat.le_refl _

/-- C1: for every content string `C`, the fence delimiter chosen by
`_get_safe_separator` is a run of backticks whose length is at least
`max 3 (L + 1)` where `L` is the length of the longest maximal backtick run
of `C`; hence the delimiter is strictly longer than every backtick run of
`C`, and it never occurs verbatim as a full line of `C`. -/
theorem C1_fence_safety (content : List Char) :
    max 3 (find_longest_backtick_sequence content + 1) ≤ (get_safe_separator content).length
    ∧ (∀ r ∈ backtick_runs content, r < (get_safe_separator content).length)
    ∧ (∀ line ∈ pySplit '\n' content, line ≠ get_safe_separator content) := by
  have hlen : (get_safe_separator content).length =
      get_safe_separator_loop 20 (pySplit '\n' content)
        (max 3 (find_longest_backtick_sequence content + 1)) := by
    simp [get_safe_separator]
  have hge : max 3 (find_longest_backtick_sequence content + 1) ≤
      (get_safe_separator content).length := by
    rw [hlen]; exact get_safe_separator_loop_ge _ _ _
  refine ⟨hge, ?_, ?_⟩
  · intro r hr
    have h1 : r ≤ foldMax (backtick_runs content) := le_foldMax_of_mem hr
    have h2 : foldMax (backtick_runs content) = find_longest_backtick_sequence content :=
      (find_longest_eq content).symm
    omega
  · intro line hline heq
    have hinf : get_safe_separator content <:+: content := by
      rw [← heq]; exact mem_pySplit_isInf hline
    have hsep : get_safe_separator content =
        List.replicate (get_safe_separator content).length backtick := by
      simp [get_safe_separator]
    rw [hsep] at hinf
    have h1 : (get_safe_separator content).length ≤ foldMax (backtick_runs content) :=
      replicate_infix_le hinf
    have h2 : foldMax (backtick_runs content) = find_longest_backtick_sequence content :=
      (find_longest_eq content).symm
    omega

/-- Witness for C1 at the concrete content `"a\nb"`: its first line is not
the chosen delimiter. -/
theorem C1_fence_safety_witness :
    "a".data ≠ get_safe_separator "a\nb".data :=
  (C1_fence_safety "a\nb".data).2.2 "a".data (by decide)

/-! ### Glob matching (model of the Python fnmatch collaborator) and the ignore decision -/

/-- Tokens of a glob pattern: a literal character, a single-character
wildcard, a star, or a bracket character class. -/
inductive GlobTok where
  | lit (c : Char)
  | anyChar
  | star
  | charClass (neg : Bool) (body : List Char)

/-- Scan to the closing bracket of a character class; returns the class body
and the remainder of the pattern, or none when no closing bracket exists. -/
def split_class_aux : List Char → Option (List Char × List Char)
  | [] => none
  | c :: rest =>
    if c = ']' then some ([], rest)
    else
      match split_class_aux rest with
      | none => none
      | some (body, rem) => some (c :: body, rem)

/-- A closing bracket that comes first in a class is a literal member. -/
def split_class_body : List Char → Option (List Char × List Char)
  | ']' :: rest => (split_class_aux rest).map fun p => (']' :: p.1, p.2)
  | l => split_class_aux l

/-- Modelled from the Python fnmatch bracket grammar: an optional leading
exclamation mark negates the class. -/
def split_class : List Char → Option (Bool × List Char × List Char)
  | '!' :: after => (split_class_body after).map fun p => (true, p.1, p.2)
  | l => (split_class_body l).map fun p => (false, p.1, p.2)

/-- Tokenizer for glob patterns (model of the fnmatch translation): star,
question mark, bracket classes (an unclosed bracket is a literal bracket),
and literal characters.  Fuel makes the recursion structural; every step
consumes at least one pattern character, so `pattern.length + 1` fuel
always suffices. -/
def glob_tokenize : Nat → List Char → List GlobTok
  | 0, _ => []
  | _, [] => []
  | fuel + 1, '*' :: ps => .star :: glob_tokenize fuel ps
  | fuel + 1, '?' :: ps => .anyChar :: glob_tokenize fuel ps
  | fuel + 1, '[' :: ps =>
    (match split_class ps with
     | some (neg, body, rest) => .charClass neg body :: glob_tokenize fuel rest
     | none => .lit '[' :: glob_tokenize fuel ps)
  | fuel + 1, c :: ps => .lit c :: glob_tokenize fuel ps

/-- Membership of a character in a bracket class body, with ranges. -/
def class_match : List Char → Char → Bool
  | a :: '-' :: b :: rest, c =>
    (decide (a ≤ c) && decide (c ≤ b)) || class_match rest c
  | a :: rest, c => (a == c) || class_match rest c
  | [], _ => false

/-- Glob matching of a token list against a candidate, anchored at both
ends.  Every recursive call shrinks the combined length of the tokens and
the candidate, so `toks.length + s.length + 1` fuel always suffices. -/
def glob_match_toks : Nat → List GlobTok → List Char → Bool
  | 0, _, _ => false
  | _ + 1, [], [] => true
  | _ + 1, [], _ :: _ => false
  | fuel + 1, .star :: ts, s =>
    glob_match_toks fuel ts s ||
      (match s with
       | [] => false
       | _ :: s' => glob_match_toks fuel (.star :: ts) s')
  | _ + 1, .anyChar :: _, [] => false
  | fuel + 1, .anyChar :: ts, _ :: s' => glob_match_toks fuel ts s'
  | _ + 1, .lit _ :: _, [] => false
  | fuel + 1, .lit c :: ts, d :: s' => (c == d) && glob_match_toks fuel ts s'
  | _ + 1, .charClass _ _ :: _, [] => false
  | fuel + 1, .charClass neg body :: ts, d :: s' =>
    (class_match body d != neg) && glob_match_toks fuel ts s'

/-- Model of `fnmatch.fnmatch` on a case-sensitive platform: whole-string
glob match of the candidate name against the pattern. -/
def fnmatch (name pattern : List Char) : Bool :=
  glob_match_toks ((glob_tokenize (pattern.length + 1) pattern).length + name.length + 1)
    (glob_tokenize (pattern.length + 1) pattern) name

/-- The platform path separator of the target platform. -/
def osSep : Char := '/'

/-- Embeds `_should_ignore`: some pattern matches the given path, or the
relative path, or some segment of the given path split on the platform
separator. -/
def should_ignore (path relative_path : List Char)
    (ignore_patterns : List (List Char)) : Bool :=
  ignore_patterns.any fun pattern =>
    fnmatch path pattern || fnmatch relative_path pattern ||
      (pySplit osSep path).any fun part => fnmatch part pattern

/-- C4: the ignore decision returns true exactly when some pattern
glob-matches the absolute path, or the relative path, or some segment of the
absolute path split on the platform separator; in particular the bare
segment pattern `node_modules` suppresses an entry carrying that segment at
any depth. -/
theorem C4_should_ignore_iff :
    (∀ (path relative_path : List Char) (ignore_patterns : List (List Char)),
      should_ignore path relative_path ignore_patterns = true ↔
        ∃ pattern ∈ ignore_patterns,
          fnmatch path pattern = true ∨ fnmatch relative_path pattern = true ∨
            ∃ part ∈ pySplit osSep path, fnmatch part pattern = true)
    ∧ ∀ (path relative_path : List Char) (ignore_patterns : List (List Char)),
        "node_modules".data ∈ ignore_patterns →
        "node_modules".data ∈ pySplit osSep path →
        should_ignore path relative_path ignore_patterns = true := by
  have hiff : ∀ (path relative_path : List Char) (ignore_patterns : List (List Char)),
      should_ignore path relative_path ignore_patterns = true ↔
        ∃ pattern ∈ ignore_patterns,
          fnmatch path pattern = true ∨ fnmatch relative_path pattern = true ∨
            ∃ part ∈ pySplit osSep path, fnmatch part pattern = true := by
    intro path rel pats
    simp [should_ignore, List.any_eq_true, Bool.or_eq_true, or_assoc]
  refine ⟨hiff, ?_⟩
  intro path rel pats hp hseg
  exact (hiff path rel pats).mpr
    ⟨"node_modules".data, hp, Or.inr (Or.inr ⟨"node_modules".data, hseg, by decide⟩)⟩

/-- Witness for C4: the single pattern `node_modules` ignores the path
`src/node_modules/pkg`. -/
theorem C4_should_ignore_iff_witness :
    should_ignore "src/node_modules/pkg".data "node_modules/pkg".data
      ["node_modules".data] = true :=
  C4_should_ignore_iff.2 "src/node_modules/pkg".data "node_modules/pkg".data
    ["node_modules".data] (by decide) (by decide)

/-! ### Ignore pattern assembly -/

/-- Embeds `_load_ignore_file` applied to the lines of the rule file: strip
each line, keep the nonempty ones that do not start with a comment mark. -/
def load_ignore_file (fileLines : List String) : List String :=
  (fileLines.map String.trim).filter fun line => (line != "") && !(line.startsWith "#")

/-- The built-in default ignore patterns of `_load_ignore_patterns`. -/
def default_patterns : List String := [".git", "__pycache__", ".DS_Store", "*.pyc", "*.pyo"]

/-- Embeds `_load_ignore_patterns`: file-sourced patterns, then the explicit
caller-supplied patterns, then each built-in default that is not already
present in the list built so far. -/
def load_ignore_patterns (fileLines explicitPatterns : List String) : List String :=
  let all := load_ignore_file fileLines ++ explicitPatterns
  default_patterns.foldl (fun acc p => if p ∈ acc then acc else acc ++ [p]) all

/-- The pattern list `process` actually uses: the loaded patterns with the
output file name appended unconditionally at the end. -/
def all_ignore_patterns (fileLines explicitPatterns : List String)
    (output_file : String) : List String :=
  load_ignore_patterns fileLines explicitPatterns ++ [output_file]

theorem foldl_skip_dup (defaults : List String) :
    ∀ all : List String, defaults.Nodup →
      defaults.foldl (fun acc p => if p ∈ acc then acc else acc ++ [p]) all =
        all ++ defaults.filter fun p => decide (p ∉ all) := by
  induction defaults with
  | nil => intro all _; simp
  | cons d ds ih =>
    intro all hnd
    have hd : d ∉ ds := (List.nodup_cons.mp hnd).1
    have hds : ds.Nodup := (List.nodup_cons.mp hnd).2
    by_cases hc : d ∈ all
    · rw [List.foldl_cons]
      simp only [if_pos hc]
      rw [ih all hds, List.filter_cons]
      simp [hc]
    · rw [List.foldl_cons]
      simp only [if_neg hc]
      rw [ih (all ++ [d]) hds, List.filter_cons]
      have hfilter : (ds.filter fun p => decide (p ∉ all ++ [d])) =
          ds.filter fun p => decide (p ∉ all) := by
        apply List.filter_congr
        intro p hp
        have hpd : p ≠ d := fun h => hd (h ▸ hp)
        simp [List.mem_append, hpd]
      rw [hfilter]
      simp [hc]

/-- C8 (amended): the assembled pattern list is the file-sourced patterns,
then the explicit patterns in caller order, then those built-in defaults not
already present, then the resolved output file name appended last
unconditionally.  (The list is not in general unique by value: only the
defaults are deduplicated.) -/
theorem C8_pattern_order (fileLines explicitPatterns : List String) (output_file : String) :
    all_ignore_patterns fileLines explicitPatterns output_file =
      (load_ignore_file fileLines ++ explicitPatterns)
        ++ (default_patterns.filter fun p =>
              decide (p ∉ load_ignore_file fileLines ++ explicitPatterns))
        ++ [output_file] := by
  unfold all_ignore_patterns load_ignore_patterns
  rw [foldl_skip_dup default_patterns _ (by decide)]

/-- C8 counterexample: with explicit patterns "a", "a" the assembled pattern
sequence is not unique by value. -/
theorem C8_not_nodup : ¬ (all_ignore_patterns [] ["a", "a"] "out.md").Nodup := by decide

/-! ### Text decoding fallback chain -/

/-- Outcome of one attempt to open and read a file under one encoding, as
`_read_text_file` observes it: a decoded text, a decode failure (the
UnicodeDecodeError / LookupError branch), or any other I/O failure (the
bare except branch that breaks the loop). -/
inductive DecodeOutcome where
  | ok (text : String)
  | decodeError
  | ioError
deriving DecidableEq

/-- The encoding fallback chain of `_read_text_file`. -/
def default_encodings : List String :=
  ["utf-8", "utf-8-sig", "latin-1", "cp1252", "gbk", "gb2312"]

/-- Embeds `_read_text_file`: try each encoding in order; the first
successful decode wins, a decode failure moves to the next encoding, any
other I/O failure breaks out of the loop, and with no success the function
returns none instead of raising. -/
def read_text_file (decodeAt : String → DecodeOutcome) : List String → Option String
  | [] => none
  | e :: rest =>
    match decodeAt e with
    | .ok t => some t
    | .decodeError => read_text_file decodeAt rest
    | .ioError => none

theorem read_text_file_first (decodeAt : String → DecodeOutcome) :
    ∀ (pre : List String) (e : String) (post : List String) (t : String),
      (∀ e' ∈ pre, decodeAt e' = DecodeOutcome.decodeError) → decodeAt e = DecodeOutcome.ok t →
      read_text_file decodeAt (pre ++ e :: post) = some t := by
  intro pre
  induction pre with
  | nil => intro e post t _ he; simp [read_text_file, he]
  | cons p ps ih =>
    intro e post t hpre he
    have hp := hpre p (by simp)
    simp only [List.cons_append, read_text_file, hp]
    exact ih e post t (fun e' h' => hpre e' (by simp [h'])) he

theorem read_text_file_all_fail (decodeAt : String → DecodeOutcome) :
    ∀ encs : List String, (∀ e ∈ encs, decodeAt e = DecodeOutcome.decodeError) →
      read_text_file decodeAt encs = none := by
  intro encs
  induction encs with
  | nil => intro _; rfl
  | cons e rest ih =>
    intro hall
    have he := hall e (by simp)
    simp only [read_text_file, he]
    exact ih fun e' h' => hall e' (by simp [h'])

theorem read_text_file_io_break (decodeAt : String → DecodeOutcome) :
    ∀ (pre : List String) (e : String) (post : List String),
      (∀ e' ∈ pre, decodeAt e' = DecodeOutcome.decodeError) → decodeAt e = DecodeOutcome.ioError →
      read_text_file decodeAt (pre ++ e :: post) = none := by
  intro pre
  induction pre with
  | nil => intro e post _ he; simp [read_text_file, he]
  | cons p ps ih =>
    intro e post hpre he
    have hp := hpre p (by simp)
    simp only [List.cons_append, read_text_file, hp]
    exact ih e post (fun e' h' => hpre e' (by simp [h'])) he

theorem read_text_file_none (decodeAt : String → DecodeOutcome) :
    ∀ encs : List String, read_text_file decodeAt encs = none →
      (∀ e ∈ encs, decodeAt e = DecodeOutcome.decodeError)
        ∨ ∃ e ∈ encs, decodeAt e = DecodeOutcome.ioError := by
  intro encs
  induction encs with
  | nil => intro _; exact Or.inl (by simp)
  | cons e rest ih =>
    intro hnone
    cases he : decodeAt e with
    | ok t => simp only [read_text_file, he] at hnone; cases hnone
    | decodeError =>
      have hnone' : read_text_file decodeAt rest = none := by
        simpa only [read_text_file, he] using hnone
      rcases ih hnone' with hall | ⟨e', he1, he2⟩
      · refine Or.inl ?_
        intro x hx
        rcases List.mem_cons.mp hx with rfl | hx'
        · exact he
        · exact hall x hx'
      · exact Or.inr ⟨e', by simp [he1], he2⟩
    | ioError => exact Or.inr ⟨e, by simp, he⟩

/-- C10: since the latin-1 attempt never raises a decode error, decode
exhaustion is unreachable: the reader returns none only when some attempt
ends in a non-decoding I/O error, and whenever no attempt does, it returns
some decoded text. -/
theorem C10_latin1_total (decodeAt : String → DecodeOutcome)
    (hl : decodeAt "latin-1" ≠ DecodeOutcome.decodeError) :
    (read_text_file decodeAt default_encodings = none →
      ∃ e ∈ default_encodings, decodeAt e = DecodeOutcome.ioError)
    ∧ ((∀ e ∈ default_encodings, decodeAt e ≠ DecodeOutcome.ioError) →
      ∃ t, read_text_file decodeAt default_encodings = some t) := by
  constructor
  · intro hnone
    rcases read_text_file_none decodeAt default_encodings hnone with hall | h
    · exact absurd (hall "latin-1" (by simp [default_encodings])) hl
    · exact h
  · intro hio
    cases hres : read_text_file decodeAt default_encodings with
    | some t => exact ⟨t, rfl⟩
    | none =>
      rcases read_text_file_none decodeAt default_encodings hres with hall | ⟨e, he1, he2⟩
      · exact absurd (hall "latin-1" (by simp [default_encodings])) hl
      · exact absurd he2 (hio e he1)

/-- Witness for C10: in an environment whose every decode attempt succeeds,
the reader returns some text. -/
theorem C10_latin1_total_witness :
    ∃ t, read_text_file (fun _ => DecodeOutcome.ok "x") default_encodings = some t :=
  (C10_latin1_total (fun _ => DecodeOutcome.ok "x") (by simp)).2 (by simp)

/-! ### Content serialization -/

/-- The statistics counters of `_init_stats` that flow into the run (the
start timestamp is used only for console reporting and is omitted from the
document model). -/
structure Stats where
  total_dirs : Nat
  total_files : Nat
  text_files : Nat
  converted_files : Nat
  ignored_paths : Nat
  failed_files : Nat
deriving DecidableEq

/-- The all-zero counters of `_init_stats`. -/
def init_stats : Stats := ⟨0, 0, 0, 0, 0, 0⟩

/-- Result of the markitdown convert call as `_convert_with_markitdown`
observes it: a text content (possibly empty) or a raised exception whose
message text is captured. -/
inductive ConvertOutcome where
  | ok (text : String)
  | raised (msg : String)

/-- The per-file part of the filesystem snapshot: the human-readable size
string produced by `_get_file_size` (float byte formatting stays outside
the model), the outcome of each decoding attempt, and the outcome of a
markitdown conversion of the file. -/
structure FileData where
  sizeDisplay : String
  decodeAt : String → DecodeOutcome
  convertResult : ConvertOutcome

/-- Model of os.path.splitext restricted to its extension component: split
at the last dot, unless every character of the name before that dot is a
dot. -/
def splitext_ext (name : List Char) : List Char :=
  if name.contains '.' then
    let afterRev := name.reverse.takeWhile fun c => c != '.'
    let i := name.length - afterRev.length - 1
    if (name.take i).all fun c => c == '.' then [] else name.drop i
  else []

/-- The lower-cased extension of a filename, as the source computes at each
use site from os.path.splitext. -/
def fileExt (filename : String) : String :=
  String.mk ((splitext_ext filename.data).map Char.toLower)

/-- The delegate-eligible extension set of `_should_convert_to_markdown`. -/
def convert_extensions : List String :=
  [".pdf", ".doc", ".docx", ".ppt", ".pptx", ".xls", ".xlsx", ".odt", ".ods",
   ".odp", ".rtf", ".epub", ".mobi", ".azw3", ".jpg", ".jpeg", ".png", ".gif",
   ".bmp", ".tiff", ".tif", ".svg", ".webp", ".ico", ".heic", ".heif"]

/-- Embeds `_should_convert_to_markdown`. -/
def should_convert_to_markdown (ext : String) : Bool := convert_extensions.contains ext

/-- The fence language table of `_get_language_from_extension`. -/
def ext_map : List (String × String) :=
  [(".py", "python"), (".md", "markdown"), (".txt", "text"), (".js", "javascript"),
   (".html", "html"), (".css", "css"), (".json", "json"), (".xml", "xml"),
   (".yaml", "yaml"), (".yml", "yaml"), (".sh", "bash"), (".java", "java"),
   (".c", "c"), (".cpp", "cpp"), (".sql", "sql")]

/-- Embeds `_get_language_from_extension`, defaulting to the empty tag. -/
def get_language_from_extension (filename : String) : String :=
  ((ext_map.find? fun p => p.1 == fileExt filename).map Prod.snd).getD ""

/-- The description table of `_get_file_type_description`. -/
def type_map : List (String × String) :=
  [(".py", "Python脚本"), (".md", "Markdown文档"), (".txt", "文本文件"),
   (".pdf", "PDF文档"), (".doc", "Word文档"), (".docx", "Word文档"),
   (".xls", "Excel表格"), (".xlsx", "Excel表格"), (".jpg", "JPEG图像"),
   (".png", "PNG图像"), (".gif", "GIF图像"), (".zip", "压缩文件"),
   (".json", "JSON数据"), (".html", "HTML网页"), (".css", "样式表"),
   (".js", "JavaScript脚本")]

/-- Embeds `_get_file_type_description`. -/
def get_file_type_description (ext : String) : String :=
  ((type_map.find? fun p => p.1 == ext).map Prod.snd).getD "未知类型"

/-- The icon table of `_get_file_icon`. -/
def icon_map : List (String × String) :=
  [(".py", "🐍"), (".md", "📝"), (".txt", "📄"), (".pdf", "📕"), (".doc", "📘"),
   (".docx", "📘"), (".xls", "📊"), (".xlsx", "📊"), (".jpg", "🖼️"),
   (".png", "🖼️"), (".gif", "🖼️"), (".zip", "🗜️"), (".json", "🗂️"),
   (".html", "🌐"), (".css", "🎨"), (".js", "⚡"), (".java", "☕"),
   (".cpp", "⚙️"), (".c", "⚙️"), (".go", "🐹"), (".rs", "🦀")]

/-- Embeds `_get_file_icon`. -/
def get_file_icon (ext : String) : String :=
  ((icon_map.find? fun p => p.1 == ext).map Prod.snd).getD "📄"

/-- Embeds `_write_text_content`: a language-tagged safe fence around the
content, synthesizing a trailing line break when the content lacks one. -/
def write_text_content (content : String) (filename : String) : String :=
  String.mk (get_safe_separator content.data) ++ get_language_from_extension filename ++ "\n"
    ++ content ++ (if content.endsWith "\n" then "" else "\n")
    ++ String.mk (get_safe_separator content.data) ++ "\n\n"

/-- Embeds `_convert_with_markitdown`: a successful conversion with
nonempty text becomes a markdown-tagged safe fence; empty text or a raised
exception becomes an inline note plus a counted failure. -/
def convert_with_markitdown (conv : ConvertOutcome) (stats : Stats) : String × Stats :=
  match conv with
  | .ok content =>
    if content ≠ "" then
      ("*(使用markitdown转换后的内容)*\n\n" ++ String.mk (get_safe_separator content.data)
          ++ "markdown\n" ++ content ++ (if content.endsWith "\n" then "" else "\n")
          ++ String.mk (get_safe_separator content.data) ++ "\n\n",
        stats)
    else
      ("*(转换成功但返回空内容)*\n\n", { stats with failed_files := stats.failed_files + 1 })
  | .raised msg =>
    ("*(使用markitdown转换失败: " ++ msg ++ ")*\n\n",
      { stats with failed_files := stats.failed_files + 1 })

/-- Embeds `_process_file_content`: a delegate-eligible extension with the
capability available goes to markitdown (counting a conversion); otherwise
the file is read as text, a successful decode is fenced, and an undecodable
file yields an inline note plus a counted failure. -/
def process_file_content (markitdown_available : Bool) (filename : String)
    (data : FileData) (stats : Stats) : String × Stats :=
  if should_convert_to_markdown (fileExt filename) && markitdown_available then
    convert_with_markitdown data.convertResult
      { stats with converted_files := stats.converted_files + 1 }
  else
    match read_text_file data.decodeAt default_encodings with
    | some content =>
      (write_text_content content filename,
        { stats with text_files := stats.text_files + 1 })
    | none =>
      ((if markitdown_available && should_convert_to_markdown (fileExt filename) then
          "*(二进制文件，需要markitdown进行转换但转换失败)*\n\n"
        else "*(二进制文件，内容无法直接显示)*\n\n"),
        { stats with failed_files := stats.failed_files + 1 })

/-- C6: at the failing input (a delegate-eligible .pdf file, delegate
capability unavailable, every decode attempt failing), the code emits the
plain cannot-display binary note and counts a failure, whereas the claim
requires the distinguishing conversion-unavailable note there: the guard of
the distinguishing note demands the capability to be available, which
contradicts the branch it lives in, so that note is unreachable. -/
theorem C6_binary_note_bug :
    process_file_content false "x.pdf"
        ⟨"1.0 KB", fun _ => DecodeOutcome.decodeError, ConvertOutcome.ok "y"⟩ init_stats =
      ("*(二进制文件，内容无法直接显示)*\n\n", { init_stats with failed_files := 1 }) := by
  rfl

/-- C7: the decoding chain is exactly utf-8, utf-8-sig, latin-1, cp1252,
gbk, gb2312 in that order; the first encoding that decodes without error
wins; if every encoding fails to decode, or a non-decoding I/O error occurs
after a run of decode failures, the reader returns none without raising;
and a file whose plain-text read returns none is counted as failed. -/
theorem C7_encoding_chain :
    default_encodings = ["utf-8", "utf-8-sig", "latin-1", "cp1252", "gbk", "gb2312"]
    ∧ (∀ (decodeAt : String → DecodeOutcome) (pre : List String) (e : String)
        (post : List String) (t : String),
        default_encodings = pre ++ e :: post →
        (∀ e' ∈ pre, decodeAt e' = DecodeOutcome.decodeError) →
        decodeAt e = DecodeOutcome.ok t →
        read_text_file decodeAt default_encodings = some t)
    ∧ (∀ decodeAt : String → DecodeOutcome,
        (∀ e ∈ default_encodings, decodeAt e = DecodeOutcome.decodeError) →
        read_text_file decodeAt default_encodings = none)
    ∧ (∀ (decodeAt : String → DecodeOutcome) (pre : List String) (e : String)
        (post : List String),
        default_encodings = pre ++ e :: post →
        (∀ e' ∈ pre, decodeAt e' = DecodeOutcome.decodeError) →
        decodeAt e = DecodeOutcome.ioError →
        read_text_file decodeAt default_encodings = none)
    ∧ ∀ (markitdown_available : Bool) (filename : String) (data : FileData) (stats : Stats),
        (should_convert_to_markdown (fileExt filename) && markitdown_available) = false →
        read_text_file data.decodeAt default_encodings = none →
        (process_file_content markitdown_available filename data stats).2.failed_files =
          stats.failed_files + 1 := by
  refine ⟨rfl, ?_, ?_, ?_, ?_⟩
  · intro f pre e post t heq hpre he
    rw [heq]
    exact read_text_file_first f pre e post t hpre he
  · intro f hall
    exact read_text_file_all_fail f _ hall
  · intro f pre e post heq hpre he
    rw [heq]
    exact read_text_file_io_break f pre e post hpre he
  · intro avail filename data stats hsc hnone
    simp only [process_file_content, hsc, Bool.false_eq_true, if_false, hnone]

/-- Witness for C7: with utf-8 failing to decode and every later encoding
succeeding, the reader returns the utf-8-sig text. -/
theorem C7_encoding_chain_witness :
    read_text_file
        (fun e => if e == "utf-8" then DecodeOutcome.decodeError else DecodeOutcome.ok "hello")
        default_encodings = some "hello" :=
  C7_encoding_chain.2.1 _ ["utf-8"] "utf-8-sig" ["latin-1", "cp1252", "gbk", "gb2312"] "hello"
    rfl (by decide) (by decide)

/-! ### Filesystem snapshot, tree rendering, walk, and document assembly -/

/-- A filesystem snapshot entry: a file with its payload or a directory
with its children (children in raw listing order; the source sorts them). -/
inductive Entry where
  | file (name : String) (data : FileData)
  | dir (name : String) (children : List Entry)

/-- The name of a snapshot entry. -/
def Entry.name : Entry → String
  | .file n _ => n
  | .dir n _ => n

/-- Whether a snapshot entry is a directory, modelling os.path.isdir. -/
def Entry.isDir : Entry → Bool
  | .file _ _ => false
  | .dir _ _ => true

mutual

/-- Number of nodes of an entry, used only to provision loop fuel. -/
def Entry.size : Entry → Nat
  | .file _ _ => 1
  | .dir _ cs => 1 + sizeEntries cs

/-- Number of nodes of a snapshot, used only to provision loop fuel. -/
def sizeEntries : List Entry → Nat
  | [] => 0
  | e :: es => e.size + sizeEntries es

end

/-- Lexicographic code-point comparison of character lists: the order in
which Python compares strings. -/
def charListLe : List Char → List Char → Bool
  | [], _ => true
  | _ :: _, [] => false
  | a :: as, b :: bs => if a = b then charListLe as bs else decide (a < b)

/-- Insert an entry into a name-sorted list (code-point string order). -/
def insertEntry (x : Entry) : List Entry → List Entry
  | [] => [x]
  | y :: ys => if charListLe x.name.data y.name.data then x :: y :: ys else y :: insertEntry x ys

/-- Sort entries by name, modelling Python sorted and list.sort applied to
directory listings. -/
def sortEntries (l : List Entry) : List Entry := l.foldr insertEntry []

/-- Model of os.path.join on the target platform. -/
def pjoin (a b : String) : String := a ++ "/" ++ b

/-- Model of os.path.basename: the part after the last separator. -/
def pyBasename (p : String) : String :=
  String.mk ((pySplit osSep p.data).getLastD [])

/-- String-level wrapper of the `_should_ignore` embedding. -/
def should_ignore_s (path relative_path : String) (patterns : List String) : Bool :=
  should_ignore path.data relative_path.data (patterns.map String.data)

/-- One step of `_generate_directory_tree`: walk the enumerated sorted
entries of a directory; ignored entries are skipped but keep their index,
and the corner connector goes to the entry whose index is the last raw
index, mirroring the source's enumerate over the unfiltered listing.  Fuel
makes the recursion structural; calls descend one level or drop one entry,
so any fuel above twice the node count plus one suffices. -/
def gen_tree (patterns : List String) :
    Nat → String → String → List (Nat × Entry) → Nat → String → List String
  | 0, _, _, _, _, _ => []
  | _ + 1, _, _, [], _, _ => []
  | fuel + 1, absDir, relDir, (i, e) :: rest, n, prefixStr =>
    let path := pjoin absDir e.name
    let rel_entry_path := if relDir = "" then e.name else pjoin relDir e.name
    if should_ignore_s path rel_entry_path patterns then
      gen_tree patterns fuel absDir relDir rest n prefixStr
    else
      match e with
      | .dir name children =>
        (prefixStr ++ (if i = n - 1 then "└── " else "├── ") ++ name ++ "/")
          :: (gen_tree patterns fuel path rel_entry_path (sortEntries children).enum
                children.length (prefixStr ++ (if i = n - 1 then "    " else "│   "))
              ++ gen_tree patterns fuel absDir relDir rest n prefixStr)
      | .file name _ =>
        (prefixStr ++ (if i = n - 1 then "└── " else "├── ") ++ name)
          :: gen_tree patterns fuel absDir relDir rest n prefixStr

/-- Embeds `_generate_directory_tree` started from the root listing. -/
def generate_directory_tree (patterns : List String) (root_dir : String)
    (children : List Entry) : List String :=
  gen_tree patterns (2 * sizeEntries children + 2) root_dir ""
    (sortEntries children).enum children.length ""

/-- One pending directory of the walk: its path, its relative-path
components below the walk root, and its snapshot children. -/
structure DirTask where
  absPath : String
  relParts : List String
  children : List Entry

/-- The stack-popping while-loop of `_process_files`: pop from the end
while the stack is nonempty and its length is at least depth + 1.  Fuel is
the initial stack length, which the number of pops can never exceed. -/
def pop_stack_loop : Nat → List String → Nat → List String
  | 0, stack, _ => stack
  | fuel + 1, stack, depth =>
    if stack ≠ [] ∧ depth + 1 ≤ stack.length then
      pop_stack_loop fuel stack.dropLast depth
    else stack

/-- The stack update of `_process_files` before pushing the current name. -/
def pop_stack (stack : List String) (depth : Nat) : List String :=
  pop_stack_loop stack.length stack depth

/-- The directory heading of `_process_files`: hash marks at level
min(depth + 1, 6), then the breadcrumb string. -/
def dir_heading (depth : Nat) (path_str : String) : String :=
  String.mk (List.replicate (min (depth + 1) 6) '#') ++ " 📂 目录: " ++ path_str ++ "\n\n"

/-- The file heading of `_process_file`: hash marks at level
min(depth + 2, 6), then icon and filename. -/
def file_heading (depth : Nat) (icon filename : String) : String :=
  String.mk (List.replicate (min (depth + 2) 6) '#') ++ " " ++ icon ++ " 文件: "
    ++ filename ++ "\n\n"

/-- Embeds `_process_file`: count the file, emit its heading, the metadata
lines, the serialized content, and a horizontal rule. -/
def process_file (markitdown_available : Bool) (rel_file_path filename : String)
    (depth : Nat) (data : FileData) (stats : Stats) : String × Stats :=
  let stats1 : Stats := { stats with total_files := stats.total_files + 1 }
  let r := process_file_content markitdown_available filename data stats1
  (file_heading depth (get_file_icon (fileExt filename)) filename
      ++ "**路径**: `" ++ rel_file_path ++ "`  \n"
      ++ "**大小**: " ++ data.sizeDisplay ++ "  \n"
      ++ "**类型**: " ++ get_file_type_description (fileExt filename) ++ "\n\n"
      ++ r.1 ++ "---\n\n",
    r.2)

/-- The per-directory file loop of `_process_files` over the surviving
files in sorted order (directory entries cannot occur in the file list and
are skipped defensively). -/
def process_files_of_dir (avail : Bool) (relPath : String) (relParts : List String)
    (depth : Nat) : List Entry → Stats → String × Stats
  | [], stats => ("", stats)
  | .dir _ _ :: rest, stats => process_files_of_dir avail relPath relParts depth rest stats
  | .file name data :: rest, stats =>
    let rel_file_path := if relParts = [] then name else pjoin relPath name
    let r1 := process_file avail rel_file_path name depth data stats
    let r2 := process_files_of_dir avail relPath relParts depth rest r1.2
    (r1.1 ++ r2.1, r2.2)

/-- The os.walk loop of `_process_files`, one directory per unit of fuel,
pending directories carried in depth-first pre-order (exactly the walk
order with in-place pruning of ignored subdirectories).  The depth equals
the number of relative-path components, which is what splitting the
relative path on the separator yields.  Returns the emitted text, the
final path stack, and the statistics. -/
def walk_files (avail : Bool) (patterns : List String) :
    Nat → List DirTask → List String → Stats → String × List String × Stats
  | 0, _, stack, stats => ("", stack, stats)
  | _ + 1, [], stack, stats => ("", stack, stats)
  | fuel + 1, task :: rest, stack, stats =>
    let relPath := if task.relParts = [] then "." else String.intercalate "/" task.relParts
    let dirsAll := task.children.filter Entry.isDir
    let filesAll := task.children.filter fun e => !e.isDir
    let dirsKept := dirsAll.filter fun e =>
      !(should_ignore_s (pjoin task.absPath e.name)
          (if task.relParts = [] then e.name else pjoin relPath e.name) patterns)
    let stats1 : Stats :=
      { stats with ignored_paths := stats.ignored_paths + (dirsAll.length - dirsKept.length) }
    let dirsSorted := sortEntries dirsKept
    let filesSorted := sortEntries filesAll
    let depth := task.relParts.length
    let stack1 := pop_stack stack depth
    let base := pyBasename task.absPath
    let dir_name := if base ≠ "" then base else task.absPath
    let stack2 := if task.relParts = [] then stack1 else stack1 ++ [dir_name]
    let newTasks := dirsSorted.map fun e =>
      { absPath := pjoin task.absPath e.name
        relParts := task.relParts ++ [e.name]
        children := match e with | .dir _ cs => cs | .file _ _ => [] : DirTask }
    if should_ignore_s task.absPath relPath patterns then
      walk_files avail patterns fuel (newTasks ++ rest) stack2
        { stats1 with ignored_paths := stats1.ignored_paths + 1 }
    else
      let stats2 : Stats := { stats1 with total_dirs := stats1.total_dirs + 1 }
      let nodeHead :=
        if task.relParts = [] then "" else dir_heading depth (String.intercalate " / " stack2)
      let filesKept := filesSorted.filter fun e =>
        !(should_ignore_s (pjoin task.absPath e.name)
            (if task.relParts = [] then e.name else pjoin relPath e.name) patterns)
      let stats3 : Stats :=
        { stats2 with ignored_paths :=
            stats2.ignored_paths + (filesSorted.length - filesKept.length) }
      let rf := process_files_of_dir avail relPath task.relParts depth filesKept stats3
      let rw := walk_files avail patterns fuel (newTasks ++ rest) stack2 rf.2
      (nodeHead ++ rf.1 ++ rw.1, rw.2)

/-- Embeds `_process_files` over the snapshot of the input directory. -/
def process_files (avail : Bool) (patterns : List String) (input_dir : String)
    (snapshot : List Entry) (stats : Stats) : String × Stats :=
  let r := walk_files avail patterns (sizeEntries snapshot + 2)
    [⟨input_dir, [], snapshot⟩] [] stats
  (r.1, r.2.2)

/-- The part of `_write_header` before the generation-time line. -/
def write_header_pre (input_dir abs_display : String) : String :=
  "# 📁 目录: " ++ (if pyBasename input_dir ≠ "" then pyBasename input_dir else input_dir)
    ++ "\n\n**原始路径**: `" ++ abs_display ++ "`  \n"

/-- Embeds `_write_header`; the absolute-path display and the clock reading
come from the environment. -/
def write_header (input_dir abs_display now : String) : String :=
  write_header_pre input_dir abs_display ++ "**生成时间**: " ++ now ++ "  \n\n"

/-- Embeds `_write_directory_tree`: a fenced tree listing. -/
def write_directory_tree (patterns : List String) (input_dir : String)
    (snapshot : List Entry) : String :=
  "## 📊 目录结构\n\n```\n"
    ++ String.intercalate "\n" (generate_directory_tree patterns input_dir snapshot)
    ++ "\n```\n\n---\n\n"

/-- Embeds `_write_statistics` (only the two counters the source leaves
uncommented reach the document). -/
def write_statistics (stats : Stats) : String :=
  "\n\n## 📈 统计信息\n\n- **总目录数**: " ++ toString stats.total_dirs
    ++ "\n- **总文件数**: " ++ toString stats.total_files ++ "\n"

/-- Embeds `process`: header, directory tree, per-node sections in walk
order, then the statistics section, over a snapshot of the input
directory; `now` is the clock reading and `abs_display` the absolute-path
display supplied by the environment. -/
def process (avail : Bool) (fileLines explicitPatterns : List String) (output_file : String)
    (input_dir abs_display now : String) (snapshot : List Entry) : String :=
  write_header input_dir abs_display now
    ++ write_directory_tree (all_ignore_patterns fileLines explicitPatterns output_file)
        input_dir snapshot
    ++ (process_files avail (all_ignore_patterns fileLines explicitPatterns output_file)
        input_dir snapshot init_stats).1
    ++ write_statistics
        (process_files avail (all_ignore_patterns fileLines explicitPatterns output_file)
          input_dir snapshot init_stats).2

/-- A file payload used by the concrete test snapshots. -/
def plainData : FileData :=
  ⟨"1.0 B", fun _ => DecodeOutcome.ok "print(1)\n", ConvertOutcome.ok ""⟩

/-- C5: at the failing input — a directory whose sorted listing is a.py,
b.pyc, where b.pyc is suppressed by the built-in default pattern for
compiled Python files — the sole surviving (hence last surviving) child
a.py is rendered with the branch connector, because the source computes
last-ness over the unfiltered listing; the claim requires the corner
connector for the last surviving child. -/
theorem C5_tree_connector_bug :
    generate_directory_tree (all_ignore_patterns [] [] "out.md") "d"
        [Entry.file "a.py" plainData, Entry.file "b.pyc" plainData] = ["├── a.py"] := by
  rfl

/-- C2: at the failing input — a walk root holding two sibling
subdirectories a and b — the walk emits the breadcrumb heading `a / b` for
b: the pop loop runs only while the stack length is at least depth + 1, so
moving from a to its sibling b leaves the stale entry a on the stack; the
claim requires the stack to hold exactly b's ancestor chain, which would
emit the breadcrumb `b`. -/
theorem C2_breadcrumb_bug :
    (process_files false (all_ignore_patterns [] [] "out.md") "d"
        [Entry.dir "a" [], Entry.dir "b" []] init_stats).1 =
      "## 📂 目录: a\n\n## 📂 目录: a / b\n\n" := by
  rfl

/-- C3 counterexample: two runs over the same empty snapshot with the same
arguments but different clock readings produce different documents. -/
theorem C3_clock_dependence :
    process false [] [] "out.md" "d" "/abs/d" "2024-01-01 00:00:00" [] ≠
      process false [] [] "out.md" "d" "/abs/d" "2024-01-02 00:00:00" [] := by
  decide

/-- C3 (amended): for a fixed snapshot and fixed arguments the document
depends on the environment only through the clock reading, which occurs
exactly once, in the generation-time header line: all runs share a common
prefix and suffix around that line, so two runs with equal clock readings
are byte-identical. -/
theorem C3_deterministic_modulo_time (avail : Bool)
    (fileLines explicitPatterns : List String)
    (output_file input_dir abs_display : String) (snapshot : List Entry) :
    ∃ pre post, ∀ now : String,
      process avail fileLines explicitPatterns output_file input_dir abs_display now snapshot =
        pre ++ ("**生成时间**: " ++ now ++ "  \n\n") ++ post := by
  refine ⟨write_header_pre input_dir abs_display,
    write_directory_tree (all_ignore_patterns fileLines explicitPatterns output_file)
        input_dir snapshot
      ++ (process_files avail (all_ignore_patterns fileLines explicitPatterns output_file)
          input_dir snapshot init_stats).1
      ++ write_statistics
          (process_files avail (all_ignore_patterns fileLines explicitPatterns output_file)
            input_dir snapshot init_stats).2,
    fun now => ?_⟩
  simp only [process, write_header, String.append_assoc]

theorem takeWhile_hash_aux (k : Nat) (r : Char) (rs : List Char) (h : (r == '#') = false) :
    (List.replicate k '#' ++ r :: rs).takeWhile (fun c => c == '#') = List.replicate k '#' := by
  induction k with
  | zero => simp [List.takeWhile_cons, h]
  | succ k ih => simp [List.replicate_succ, List.takeWhile_cons, ih]

/-- C9: the emitted directory heading of a node at depth d starts with
exactly min(d + 1, 6) hash marks and the emitted file heading of a file in
it with exactly min(d + 2, 6); both levels are bounded by 6 at every
depth. -/
theorem C9_heading_saturation (depth : Nat) (path_str icon filename : String) :
    (dir_heading depth path_str).data.takeWhile (fun c => c == '#') =
        List.replicate (min (depth + 1) 6) '#'
    ∧ (file_heading depth icon filename).data.takeWhile (fun c => c == '#') =
        List.replicate (min (depth + 2) 6) '#'
    ∧ min (depth + 1) 6 ≤ 6 ∧ min (depth + 2) 6 ≤ 6 := by
  refine ⟨?_, ?_, by omega, by omega⟩
  · have hd : (dir_heading depth path_str).data =
        List.replicate (min (depth + 1) 6) '#'
          ++ ' ' :: ("📂 目录: " ++ path_str ++ "\n\n").data := by
      simp [dir_heading, String.data_append]
    rw [hd, takeWhile_hash_aux _ _ _ (by decide)]
  · have hf : (file_heading depth icon filename).data =
        List.replicate (min (depth + 2) 6) '#'
          ++ ' ' :: (icon ++ " 文件: " ++ filename ++ "\n\n").data := by
      simp [file_heading, String.data_append]
    rw [hf, takeWhile_hash_aux _ _ _ (by decide)]

end FileConcat
